import Mathlib

/-!
# LinkMe: the user DAO and the event consumer runtime

Part one embeds `internal/repository/dao/user.go`: the `User` and `Profile`
rows, the error values, `CreateUser` and the three finders.  The database
handle (`*gorm.DB` over MySQL) is an external collaborator; it is embedded as
an explicit store of rows with the unique indexes the struct tags declare, a
transaction that works on a pending copy of the store, the auto-save of the
has-one association on `Create`, and an `Env` that fixes
everything the surrounding world decides (the clock, the snowflake node, and
whether a statement fails for a reason of its own).

Part two models the consumer group runtime of the specification
(§3, §4.2, §4.3); `ioc/wire_gen.go` only constructs the consumers, the
runtime they run on lives in `internal/domain/events`.
-/

namespace LinkMe

namespace dao

/-! ## Errors -/

/-- Error values that reach the DAO: the two sentinels of `user.go`,
`gorm.ErrRecordNotFound`, a `*mysql.MySQLError` with its `Number`, the
argument-count error of `database/sql`, and any other driver error. -/
inductive Err where
  | ErrDuplicateEmail
  | ErrUserNotFound
  | ErrRecordNotFound
  | MySQLError (Number : Nat)
  | badArgs (expected got : Nat)
  | other (msg : String)
  deriving DecidableEq, Repr

/-- The constant `ErrCodeDuplicateEmailNumber uint16 = 1062` (MySQL `ER_DUP_ENTRY`). -/
def ErrCodeDuplicateEmailNumber : Nat := 1062

/-- The test `errors.As(err, &mysqlErr)`: the MySQL error number when `err` is a
`*mysql.MySQLError`. -/
def asMySQLError : Err → Option Nat
  | .MySQLError n => some n
  | _ => none

/-! ## Rows -/

/-- Struct `Profile`, a row of table `profiles`. -/
structure Profile where
  ID : Int
  UserID : Int
  NickName : String
  Avatar : String
  About : String
  Birthday : String
  deriving DecidableEq, Repr

/-- The Go zero value `Profile{}`. -/
def Profile.zero : Profile :=
  { ID := 0, UserID := 0, NickName := "", Avatar := "", About := "", Birthday := "" }

/-- Struct `User`.  `Phone` is a `*string`, a nil pointer being SQL `NULL`.
`Profile` is the has-one association (`foreignKey:UserID;references:ID`): it
is not a column of `users`, a stored row carries it as the zero value and the
finders never preload it. -/
structure User where
  ID : Int
  CreateTime : Int
  UpdatedTime : Int
  DeletedTime : Int
  PasswordHash : String
  Deleted : Bool
  Email : String
  Phone : Option String
  Profile : Profile
  deriving DecidableEq, Repr

/-- The Go zero value `User{}`. -/
def User.zero : User :=
  { ID := 0, CreateTime := 0, UpdatedTime := 0, DeletedTime := 0,
    PasswordHash := "", Deleted := false, Email := "", Phone := none,
    Profile := Profile.zero }

/-! ## The store -/

/-- Committed contents of the two tables. -/
structure DB where
  users : List User
  profiles : List Profile
  deriving DecidableEq, Repr

/-- What the world outside the DAO decides during one call: the clock
(`time.Now().UnixMilli()`), the snowflake node (`node.Generate().Int64()`),
and for each statement whether it fails for a reason of its own (lost
connection, cancelled context, ...). -/
structure Env where
  now : Int
  nextID : Int
  beginErr : Option Err
  createUserErr : Option Err
  createProfileErr : Option Err
  commitErr : Option Err
  queryErr : Option Err
  deriving DecidableEq, Repr

/-- A world in which no statement fails for a reason of its own. -/
def Env.quiet (now nextID : Int) : Env :=
  { now := now, nextID := nextID, beginErr := none, createUserErr := none,
    createProfileErr := none, commitErr := none, queryErr := none }

/-- An open transaction (`tx := db.Begin()`): the committed store, the pending
copy the statements work on, and the sticky `tx.Error` of a failed `Begin`. -/
structure Tx where
  committed : DB
  pending : DB
  Error : Option Err
  deriving DecidableEq, Repr

/-- The call `db.WithContext(ctx).Begin()`; the error of a failed begin stays on the
handle and the code does not look at it. -/
def Begin (env : Env) (db : DB) : Tx :=
  { committed := db, pending := db, Error := env.beginErr }

/-- A row of `users` that collides with `u` on a unique key: the primary key
`ID`, the `uniqueIndex` on `Email`, or the `uniqueIndex` on `Phone` (a `NULL`
phone collides with nothing). -/
def collides (u r : User) : Bool :=
  decide (r.ID = u.ID) || decide (r.Email = u.Email) ||
    (u.Phone.isSome && decide (r.Phone = u.Phone))

/-- Next value of the `autoIncrement` primary key of `profiles`. -/
def nextProfileID (ps : List Profile) : Int :=
  ps.foldl (fun m p => max m p.ID) 0 + 1

/-- The auto-save gorm does for a has-one association when its owner is
created: the associated profile, its foreign key already set, is inserted, a
zero `ID` being filled by the auto-increment; on a primary-key conflict the
stored row only gets the new foreign key (`ON DUPLICATE KEY UPDATE user_id`). -/
def saveProfile (ps : List Profile) (p : Profile) : List Profile :=
  if p.ID = 0 then ps ++ [{ p with ID := nextProfileID ps }]
  else if ps.any (fun r => decide (r.ID = p.ID)) then
    ps.map (fun r => if r.ID = p.ID then { r with UserID := p.UserID } else r)
  else ps ++ [p]

/-- The call `tx.Create(&u)` on table `users`: fails with the handle's sticky error,
with the world's error (at whichever statement of the call), or with MySQL
1062 when a unique key collides; otherwise the columns are added as a row to
the pending copy and then, when `u.Profile` is not the zero value, gorm saves
the association with `UserID` set to `u.ID`. -/
def Tx.CreateUserRow (env : Env) (tx : Tx) (u : User) : Tx × Option Err :=
  match tx.Error with
  | some e => (tx, some e)
  | none =>
    match env.createUserErr with
    | some e => (tx, some e)
    | none =>
      if tx.pending.users.any (collides u) then
        (tx, some (.MySQLError 1062))
      else
        ({ tx with pending :=
            { users := tx.pending.users ++ [{ u with Profile := Profile.zero }],
              profiles :=
                if u.Profile = Profile.zero then tx.pending.profiles
                else saveProfile tx.pending.profiles { u.Profile with UserID := u.ID } } },
          none)

/-- The call `tx.Create(&profile)` on table `profiles`: a zero `ID` is filled by the
auto-increment; the only unique key is the primary key. -/
def Tx.CreateProfileRow (env : Env) (tx : Tx) (p : Profile) : Tx × Option Err :=
  match tx.Error with
  | some e => (tx, some e)
  | none =>
    match env.createProfileErr with
    | some e => (tx, some e)
    | none =>
      let p1 : Profile :=
        if p.ID = 0 then { p with ID := nextProfileID tx.pending.profiles } else p
      if tx.pending.profiles.any (fun r => decide (r.ID = p1.ID)) then
        (tx, some (.MySQLError 1062))
      else
        ({ tx with pending := { tx.pending with profiles := tx.pending.profiles ++ [p1] } }, none)

/-- The call `tx.Rollback()`: the pending copy is dropped. -/
def Tx.Rollback (tx : Tx) : DB := tx.committed

/-- The call `tx.Commit()`: the pending copy becomes the committed store, unless the
commit fails, which leaves the committed store as it was. -/
def Tx.Commit (env : Env) (tx : Tx) : DB × Option Err :=
  match tx.Error with
  | some e => (tx.committed, some e)
  | none =>
    match env.commitErr with
    | some e => (tx.committed, some e)
    | none => (tx.pending, none)

/-! ## CreateUser -/

/-- Method `userDAO.CreateUser`: the committed store after the call and the returned
error (`none` is Go's `nil`). -/
def CreateUser (env : Env) (db : DB) (u : User) : DB × Option Err :=
  let u := { u with CreateTime := env.now }
  let u := { u with UpdatedTime := u.CreateTime }
  let u := { u with ID := env.nextID }
  let profile : Profile :=
    { ID := 0, UserID := u.ID, NickName := "", Avatar := "", About := "", Birthday := "" }
  let tx := Begin env db
  match tx.CreateUserRow env u with
  | (tx, some err) =>
    let db := tx.Rollback
    if asMySQLError err = some ErrCodeDuplicateEmailNumber then
      (db, some .ErrDuplicateEmail)
    else
      (db, some err)
  | (tx, none) =>
    match tx.CreateProfileRow env profile with
    | (tx, some err) => (tx.Rollback, some err)
    | (tx, none) =>
      match tx.Commit env with
      | (db, some err) => (db, some err)
      | (db, none) => (db, none)

/-! ## Queries -/

/-- A value bound to a `?` placeholder. -/
inductive Value where
  | int (v : Int)
  | str (v : String)
  | bool (v : Bool)
  deriving DecidableEq, Repr

/-- The columns of `users` that the finders name. -/
inductive Column where
  | id
  | email
  | phone
  | deleted
  deriving DecidableEq, Repr

/-- Value of a column in a row; `none` is SQL `NULL`. -/
def User.column (u : User) : Column → Option Value
  | .id => some (.int u.ID)
  | .email => some (.str u.Email)
  | .phone => u.Phone.map .str
  | .deleted => some (.bool u.Deleted)

/-- Binding of the arguments of `Where("c1 = ? AND c2 = ? ...", args...)` to
the placeholders, by position; `none` when their numbers differ. -/
def bindArgs : List Column → List Value → Option (List (Column × Value))
  | [], [] => some []
  | c :: cs, v :: vs => (bindArgs cs vs).map (fun rest => (c, v) :: rest)
  | _, _ => none

/-- A row satisfies every `column = value` of the conjunction (a `NULL`
column equals nothing). -/
def satisfies (conds : List (Column × Value)) (u : User) : Bool :=
  conds.all (fun cv => decide (u.column cv.1 = some cv.2))

/-- The clause `ORDER BY id LIMIT 1` that `First` adds, over the matching rows. -/
def firstByID : List User → Option User
  | [] => none
  | u :: us =>
    match firstByID us with
    | none => some u
    | some v => if u.ID ≤ v.ID then some u else some v

/-- The call `db.Where(query, args...).First(&user).Error` with the found row: the
statement fails with the world's error, or with the argument-count error when
placeholders and arguments differ in number; no matching row is
`gorm.ErrRecordNotFound`. -/
def First (env : Env) (db : DB) (query : List Column) (args : List Value) : Except Err User :=
  match env.queryErr with
  | some e => .error e
  | none =>
    match bindArgs query args with
    | none => .error (.badArgs query.length args.length)
    | some conds =>
      match firstByID (db.users.filter (satisfies conds)) with
      | none => .error .ErrRecordNotFound
      | some u => .ok u

/-- Method `userDAO.FindByID`: `Where("id = ? AND deleted = ?", id, false)`. -/
def FindByID (env : Env) (db : DB) (id : Int) : User × Option Err :=
  match First env db [.id, .deleted] [.int id, .bool false] with
  | .error err =>
    if err = .ErrRecordNotFound then (User.zero, some .ErrUserNotFound)
    else (User.zero, some err)
  | .ok user => (user, none)

/-- Method `userDAO.FindByEmail`: `Where("email = ? AND deleted = ?", email, false)`. -/
def FindByEmail (env : Env) (db : DB) (email : String) : User × Option Err :=
  match First env db [.email, .deleted] [.str email, .bool false] with
  | .error err =>
    if err = .ErrRecordNotFound then (User.zero, some .ErrUserNotFound)
    else (User.zero, some err)
  | .ok user => (user, none)

/-- Method `userDAO.FindByPhone`: `Where("phone = ? AND deleted = ?", phone)`, two
placeholders and one argument. -/
def FindByPhone (env : Env) (db : DB) (phone : String) : User × Option Err :=
  match First env db [.phone, .deleted] [.str phone] with
  | .error err =>
    if err = .ErrRecordNotFound then (User.zero, some .ErrUserNotFound)
    else (User.zero, some err)
  | .ok user => (user, none)

/-! ## Sample rows -/

/-- A stored, non-deleted user with a phone number. -/
def alice : User :=
  { ID := 1, CreateTime := 5, UpdatedTime := 5, DeletedTime := 0, PasswordHash := "h1",
    Deleted := false, Email := "a@x.io", Phone := some "123", Profile := Profile.zero }

/-- A stored user that was soft-deleted. -/
def dave : User :=
  { ID := 4, CreateTime := 6, UpdatedTime := 7, DeletedTime := 7, PasswordHash := "h4",
    Deleted := true, Email := "d@x.io", Phone := none, Profile := Profile.zero }

/-- A new user with a fresh email and the phone number of `alice`. -/
def bob : User :=
  { ID := 0, CreateTime := 0, UpdatedTime := 0, DeletedTime := 0, PasswordHash := "h2",
    Deleted := false, Email := "b@x.io", Phone := some "123", Profile := Profile.zero }

/-- A new user with a fresh email and no phone number. -/
def carol : User :=
  { ID := 0, CreateTime := 0, UpdatedTime := 0, DeletedTime := 0, PasswordHash := "h3",
    Deleted := false, Email := "c@x.io", Phone := none, Profile := Profile.zero }

/-- A new user with a fresh email whose `Profile` field is filled in. -/
def erin : User :=
  { ID := 0, CreateTime := 0, UpdatedTime := 0, DeletedTime := 0, PasswordHash := "h5",
    Deleted := false, Email := "e@x.io", Phone := none,
    Profile :=
      { ID := 0, UserID := 0, NickName := "erin", Avatar := "", About := "", Birthday := "" } }

/-- A store holding `alice` and `dave` with their profiles. -/
def db0 : DB :=
  { users := [alice, dave],
    profiles :=
      [{ ID := 1, UserID := 1, NickName := "", Avatar := "", About := "", Birthday := "" },
       { ID := 2, UserID := 4, NickName := "", Avatar := "", About := "", Birthday := "" }] }

end dao

namespace events

/-! ## The consumer group runtime (specification §3, §4.2, §4.3)

`ioc/wire_gen.go` only constructs the consumers; the runtime that pulls,
deduplicates, retries and dead-letters is modelled from the specification. -/

/-- Modelled from the spec: the `type` tag of an Event Envelope (§3); the
envelope is declared in `internal/domain/events`, which `ioc/wire_gen.go`
only imports. -/
inductive EventType where
  | PostPublished
  | UserRegistered
  | ContentChecked
  | PostSynced
  | CacheInvalidate
  | SearchIndexUpdate
  | SMSRequested
  | EmailRequested
  deriving DecidableEq, Repr

/-- Modelled from the spec: the Event Envelope of §3 (type, key, payload,
produced-at timestamp, attempt count starting at 0). -/
structure Envelope where
  type : EventType
  key : String
  payload : String
  producedAt : Nat
  attempt : Nat
  deriving DecidableEq, Repr

/-- Modelled from the spec: the result of a Handler (§4.2, §4.4): success, or
a failure the Handler classifies as `Transient` or `Permanent`. -/
inductive HandlerResult where
  | Success
  | Transient
  | Permanent
  deriving DecidableEq, Repr

/-- Modelled from the spec: a registered Handler (§4.4),
`consume(envelope) -> HandlerResult`, with the name the ledger is keyed by. -/
structure Handler where
  name : String
  consume : Envelope → HandlerResult

/-- Modelled from the spec: an Idempotency Ledger Entry (§3),
`(handlerName, eventKey, eventType) → processedAt`. -/
structure LedgerEntry where
  handlerName : String
  eventKey : String
  eventType : EventType
  processedAt : Nat
  deriving DecidableEq, Repr

/-- Modelled from the spec: a Dead-Letter Record (§3): the original envelope
plus its failure history. -/
structure DeadLetterRecord where
  envelope : Envelope
  attemptCount : Nat
  lastError : HandlerResult
  firstFailed : Nat
  lastFailed : Nat
  deriving DecidableEq, Repr

/-- Modelled from the spec: the retry policy parameters of §4.2
(`baseDelay`, `maxDelay`, `maxAttempts`). -/
structure RetryPolicy where
  baseDelay : Nat
  maxDelay : Nat
  maxAttempts : Nat
  deriving DecidableEq, Repr

/-- Modelled from the spec: what the runtime does, in order, as one log. -/
inductive Event where
  | invoked (handler : String) (e : Envelope)
  | slept (delay : Nat)
  | ledgerWritten (entry : LedgerEntry)
  | deadLettered (r : DeadLetterRecord)
  | committed (offset : Nat)
  | alerted (key : String)
  deriving DecidableEq, Repr

/-- Modelled from the spec: the state one partition worker acts on: a clock,
the Idempotency Ledger, the Dead-Letter Sink, the committed offsets, and the
log of its actions. -/
structure Runtime where
  clock : Nat
  ledger : List LedgerEntry
  deadLetters : List DeadLetterRecord
  committed : List Nat
  log : List Event
  deriving DecidableEq, Repr

/-- Modelled from the spec: ledger lookup by
`(handler.name, envelope.key, envelope.type)` (§4.2). -/
def Runtime.ledgerHas (rt : Runtime) (name key : String) (type : EventType) : Bool :=
  rt.ledger.any (fun en =>
    decide (en.handlerName = name) && decide (en.eventKey = key) && decide (en.eventType = type))

/-- Modelled from the spec: offset commit (§4.2). -/
def Runtime.commit (rt : Runtime) (offset : Nat) : Runtime :=
  { rt with committed := rt.committed ++ [offset], log := rt.log ++ [.committed offset] }

/-- Modelled from the spec: a synchronous Handler invocation (§4.2), recorded
in the log. -/
def Runtime.invoke (rt : Runtime) (h : Handler) (e : Envelope) : Runtime :=
  { rt with log := rt.log ++ [.invoked h.name e] }

/-- Modelled from the spec: the ledger write after Handler success (§4.2), an
idempotent upsert where the first writer wins (§5). -/
def Runtime.writeLedger (rt : Runtime) (h : Handler) (e : Envelope) : Runtime :=
  if rt.ledgerHas h.name e.key e.type then rt
  else
    let entry : LedgerEntry :=
      { handlerName := h.name, eventKey := e.key, eventType := e.type, processedAt := rt.clock }
    { rt with ledger := rt.ledger ++ [entry], log := rt.log ++ [.ledgerWritten entry] }

/-- Modelled from the spec: writing the Dead-Letter Record (§3, §4.2). -/
def Runtime.deadLetter (rt : Runtime) (e : Envelope) (cls : HandlerResult)
    (firstFailed : Nat) : Runtime :=
  let r : DeadLetterRecord :=
    { envelope := e, attemptCount := e.attempt, lastError := cls,
      firstFailed := firstFailed, lastFailed := rt.clock }
  { rt with deadLetters := rt.deadLetters ++ [r], log := rt.log ++ [.deadLettered r] }

/-- Modelled from the spec: the alert-worthy log event after dead-lettering
(§4.2). -/
def Runtime.alert (rt : Runtime) (e : Envelope) : Runtime :=
  { rt with log := rt.log ++ [.alerted e.key] }

/-- Modelled from the spec: the backoff `min(baseDelay * 2^attempt, maxDelay)`
of §4.2. -/
def backoff (p : RetryPolicy) (attempt : Nat) : Nat :=
  min (p.baseDelay * 2 ^ attempt) p.maxDelay

/-- Modelled from the spec: waiting out a backoff. -/
def Runtime.sleep (rt : Runtime) (delay : Nat) : Runtime :=
  { rt with clock := rt.clock + delay, log := rt.log ++ [.slept delay] }

/-- Modelled from the spec: the per-envelope loop of §4.2 and §4.3, one round
per delivery, with `fuel` bounding the rounds.  A ledger hit commits the
offset.  Otherwise the Handler is invoked: on success the ledger entry is
written and then the offset committed; on `Permanent` the envelope is
dead-lettered, the offset committed and an alert emitted; on `Transient`
`attempt` is incremented and the envelope either redelivered after the
backoff, while `attempt` is below `maxAttempts`, or dead-lettered.
`firstFailed` carries the time of the first failure; `none` is returned only
when the fuel runs out. -/
def deliver (p : RetryPolicy) (h : Handler) (offset : Nat) :
    Nat → Option Nat → Envelope → Runtime → Option Runtime
  | 0, _, _, _ => none
  | fuel + 1, firstFailed, e, rt =>
    if rt.ledgerHas h.name e.key e.type then
      some (rt.commit offset)
    else
      let rt := rt.invoke h e
      match h.consume e with
      | .Success => some ((rt.writeLedger h e).commit offset)
      | .Permanent =>
        some ((((rt.deadLetter e .Permanent (firstFailed.getD rt.clock)).commit offset)).alert e)
      | .Transient =>
        let e1 := { e with attempt := e.attempt + 1 }
        let first := firstFailed.getD rt.clock
        if e1.attempt < p.maxAttempts then
          deliver p h offset fuel (some first) e1 (rt.sleep (backoff p e1.attempt))
        else
          some ((((rt.deadLetter e1 .Transient first).commit offset)).alert e1)

/-- Modelled from the spec: handling of one pulled envelope at `offset`
(§4.2); `maxAttempts + 1` rounds always suffice. -/
def handle (p : RetryPolicy) (h : Handler) (offset : Nat) (e : Envelope) (rt : Runtime) :
    Option Runtime :=
  deliver p h offset (p.maxAttempts + 1) none e rt

/-- Modelled from the spec: number of Handler invocations recorded in a log. -/
def invocations (log : List Event) : Nat :=
  log.countP (fun ev => match ev with
    | .invoked _ _ => true
    | _ => false)

/-! ## Sample runtime inputs -/

/-- A policy with three attempts. -/
def policy3 : RetryPolicy := { baseDelay := 100, maxDelay := 250, maxAttempts := 3 }

/-- A Handler that always fails with `Transient`. -/
def flaky : Handler := { name := "sms", consume := fun _ => .Transient }

/-- A Handler that times out on its first two attempts and then succeeds. -/
def thirdTime : Handler :=
  { name := "sms", consume := fun e => if e.attempt < 2 then .Transient else .Success }

/-- A fresh `SMSRequested` envelope. -/
def env7 : Envelope :=
  { type := .SMSRequested, key := "user-7", payload := "", producedAt := 0, attempt := 0 }

/-- The state of a worker that has done nothing yet. -/
def Runtime.init : Runtime :=
  { clock := 0, ledger := [], deadLetters := [], committed := [], log := [] }

/-- The state after `thirdTime` handled `env7` at offset 5 from `Runtime.init`. -/
def afterFirst : Runtime :=
  { clock := 450,
    ledger := [⟨"sms", "user-7", .SMSRequested, 450⟩],
    deadLetters := [],
    committed := [5],
    log :=
      [.invoked "sms" env7, .slept 200,
       .invoked "sms" { env7 with attempt := 1 }, .slept 250,
       .invoked "sms" { env7 with attempt := 2 },
       .ledgerWritten ⟨"sms", "user-7", .SMSRequested, 450⟩,
       .committed 5] }

end events

end LinkMe

/-! # Theorems -/

namespace LinkMe.dao

theorem Tx.CreateUserRow_committed (env : Env) (tx : Tx) (u : User) :
    (tx.CreateUserRow env u).1.committed = tx.committed := by
  unfold Tx.CreateUserRow
  cases tx.Error <;> cases env.createUserErr <;> simp only []
  split <;> rfl

theorem Tx.CreateUserRow_ok (env : Env) (tx : Tx) (u : User)
    (h : (tx.CreateUserRow env u).2 = none) :
    (tx.CreateUserRow env u).1 =
        { tx with pending :=
            { users := tx.pending.users ++ [{ u with Profile := Profile.zero }],
              profiles :=
                if u.Profile = Profile.zero then tx.pending.profiles
                else saveProfile tx.pending.profiles { u.Profile with UserID := u.ID } } } ∧
      tx.Error = none ∧ tx.pending.users.any (collides u) = false := by
  unfold Tx.CreateUserRow at h ⊢
  cases hE : tx.Error with
  | some e => simp [hE] at h
  | none =>
    cases hU : env.createUserErr with
    | some e => simp [hE, hU] at h
    | none =>
      simp only [hE, hU] at h ⊢
      by_cases hc : tx.pending.users.any (collides u) = true
      · simp [hc] at h
      · simp only [Bool.not_eq_true] at hc
        simp [hc]

theorem Tx.CreateProfileRow_committed (env : Env) (tx : Tx) (p : Profile) :
    (tx.CreateProfileRow env p).1.committed = tx.committed := by
  unfold Tx.CreateProfileRow
  cases tx.Error <;> cases env.createProfileErr <;> simp only []
  split <;> split <;> rfl

theorem Tx.CreateProfileRow_ok (env : Env) (tx : Tx) (p : Profile) (hp : p.ID = 0)
    (h : (tx.CreateProfileRow env p).2 = none) :
    (tx.CreateProfileRow env p).1 =
        { tx with pending := { tx.pending with profiles :=
            tx.pending.profiles ++ [{ p with ID := nextProfileID tx.pending.profiles }] } } ∧
      tx.pending.profiles.any (fun r => decide (r.ID = nextProfileID tx.pending.profiles)) = false := by
  unfold Tx.CreateProfileRow at h ⊢
  cases hE : tx.Error with
  | some e => simp [hE] at h
  | none =>
    cases hU : env.createProfileErr with
    | some e => simp [hE, hU] at h
    | none =>
      simp only [hE, hU, hp, if_true] at h ⊢
      by_cases hc : tx.pending.profiles.any
          (fun r => decide (r.ID = nextProfileID tx.pending.profiles)) = true
      · simp [hc] at h
      · simp only [Bool.not_eq_true] at hc
        simp only [hc]
        simp

theorem Tx.Commit_err (env : Env) (tx : Tx) (h : (tx.Commit env).2 ≠ none) :
    (tx.Commit env).1 = tx.committed := by
  unfold Tx.Commit at h ⊢
  cases hE : tx.Error <;> cases hC : env.commitErr <;> simp only [hE, hC] at h ⊢
  exact absurd rfl h

theorem Tx.Commit_ok (env : Env) (tx : Tx) (h : (tx.Commit env).2 = none) :
    (tx.Commit env).1 = tx.pending := by
  unfold Tx.Commit at h ⊢
  cases hE : tx.Error with
  | some e => simp [hE] at h
  | none =>
    cases hC : env.commitErr with
    | some e => simp [hE, hC] at h
    | none => rfl

theorem any_false_ne {α : Type} (l : List α) (f : α → Bool) (h : l.any f = false) :
    ∀ x ∈ l, f x = false := by
  intro x hx
  cases hfx : f x with
  | false => rfl
  | true =>
    have : l.any f = true := List.any_eq_true.mpr ⟨x, hx, hfx⟩
    rw [h] at this
    exact absurd this (by decide)

/-- C1 (amended). `CreateUser` is atomic over the user row and its profile
row.  For every input user, if it returns an error (the user insert, the
profile insert or the commit failed), the committed store is the store it was
called on.  For every input user whose `Profile` field is the zero value, if
it returns nil, the committed store is the old one plus exactly one user row,
the input stamped with the clock and the snowflake ID, whose ID no old row
had, and exactly one profile row, with an ID no old profile had and `UserID`
equal to the new user's ID. -/
theorem CreateUser_atomic (env : Env) (db : DB) (u : User) :
    ((CreateUser env db u).2 ≠ none → (CreateUser env db u).1 = db) ∧
    (u.Profile = Profile.zero → (CreateUser env db u).2 = none →
      ∃ nu np, (CreateUser env db u).1 =
          { users := db.users ++ [nu], profiles := db.profiles ++ [np] } ∧
        nu = { u with CreateTime := env.now, UpdatedTime := env.now, ID := env.nextID } ∧
        np.UserID = nu.ID ∧
        (∀ x ∈ db.users, x.ID ≠ nu.ID) ∧ (∀ q ∈ db.profiles, q.ID ≠ np.ID)) := by
  unfold CreateUser
  simp only []
  obtain ⟨u1, hu1⟩ : ∃ u1 : User,
      { u with CreateTime := env.now, UpdatedTime := env.now, ID := env.nextID } = u1 := ⟨_, rfl⟩
  have hP1 : u1.Profile = u.Profile := by rw [← hu1]
  rw [hu1]
  have hc1 := Tx.CreateUserRow_committed env (Begin env db) u1
  have ho1 := Tx.CreateUserRow_ok env (Begin env db) u1
  rcases hr1 : Tx.CreateUserRow env (Begin env db) u1 with ⟨tx1, e1⟩
  rw [hr1] at hc1 ho1
  cases e1 with
  | some err =>
    simp only []
    have hdb : tx1.Rollback = db := hc1
    constructor
    · intro _
      split <;> exact hdb
    · intro _ h
      split at h <;> simp at h
  | none =>
    simp only []
    obtain ⟨htx1, -, hcol⟩ := ho1 rfl
    simp only [] at htx1 hc1
    have hc2 := Tx.CreateProfileRow_committed env tx1
      { ID := 0, UserID := env.nextID, NickName := "", Avatar := "", About := "", Birthday := "" }
    have ho2 := Tx.CreateProfileRow_ok env tx1
      { ID := 0, UserID := env.nextID, NickName := "", Avatar := "", About := "", Birthday := "" } rfl
    rcases hr2 : Tx.CreateProfileRow env tx1
      { ID := 0, UserID := env.nextID, NickName := "", Avatar := "", About := "", Birthday := "" }
      with ⟨tx2, e2⟩
    rw [hr2] at hc2 ho2
    cases e2 with
    | some err =>
      simp only []
      constructor
      · intro _
        show tx2.committed = db
        rw [hc2, hc1]; rfl
      · intro _ h
        simp at h
    | none =>
      simp only []
      obtain ⟨htx2, hpid⟩ := ho2 rfl
      simp only [] at htx2 hc2
      have hce := Tx.Commit_err env tx2
      have hco := Tx.Commit_ok env tx2
      rcases hr3 : Tx.Commit env tx2 with ⟨db3, e3⟩
      rw [hr3] at hce hco
      cases e3 with
      | some err =>
        simp only []
        constructor
        · intro _
          have := hce (by simp)
          simp only [] at this
          rw [this, hc2, hc1]; rfl
        · intro _ h
          simp at h
      | none =>
        simp only []
        constructor
        · intro h
          exact absurd rfl h
        · intro hP _
          have h3 := hco rfl
          simp only [] at h3
          have hz : u1.Profile = Profile.zero := hP1.trans hP
          have hrow : ({ u1 with Profile := Profile.zero } : User) = u1 := by
            cases u1
            simp only [] at hz
            subst hz
            rfl
          rw [hrow] at htx1
          simp only [hz, if_true] at htx1
          have hp1 : tx1.pending.profiles = db.profiles := by rw [htx1]; rfl
          rw [hp1] at hpid htx2
          refine ⟨u1, ⟨nextProfileID db.profiles, env.nextID, "", "", "", ""⟩,
            ?_, rfl, ?_, ?_, ?_⟩
          · rw [h3, htx2, htx1]
            rfl
          · rw [← hu1]
          · intro x hx hxid
            have := any_false_ne _ _ hcol x hx
            simp [collides, Begin] at this
            exact this.1.1 hxid
          · intro q hq hqid
            have := any_false_ne _ _ hpid q hq
            simp at this
            exact this hqid

theorem firstByID_mem (l : List User) (u : User) (h : firstByID l = some u) : u ∈ l := by
  induction l generalizing u with
  | nil => simp [firstByID] at h
  | cons a as ih =>
    unfold firstByID at h
    cases hr : firstByID as with
    | none =>
      rw [hr] at h
      simp only [Option.some.injEq] at h
      simp [h]
    | some v =>
      rw [hr] at h
      simp only [] at h
      split at h
      · simp only [Option.some.injEq] at h
        simp [h]
      · simp only [Option.some.injEq] at h
        subst h
        exact List.mem_cons_of_mem _ (ih v hr)

theorem firstByID_none (l : List User) : firstByID l = none ↔ l = [] := by
  cases l with
  | nil => simp [firstByID]
  | cons a as =>
    unfold firstByID
    cases firstByID as with
    | none => simp
    | some v =>
      simp only []
      split <;> simp

theorem satisfies_id (id : Int) (u : User) :
    satisfies [(.id, .int id), (.deleted, .bool false)] u = true ↔
      u.ID = id ∧ u.Deleted = false := by
  simp [satisfies, User.column]

theorem satisfies_email (email : String) (u : User) :
    satisfies [(.email, .str email), (.deleted, .bool false)] u = true ↔
      u.Email = email ∧ u.Deleted = false := by
  simp [satisfies, User.column]

theorem First_ok (env : Env) (db : DB) (conds : List (Column × Value))
    (q : List Column) (args : List Value) (hb : bindArgs q args = some conds) (u : User)
    (h : First env db q args = .ok u) : u ∈ db.users ∧ satisfies conds u = true := by
  unfold First at h
  cases hq : env.queryErr with
  | some e => simp [hq] at h
  | none =>
    simp only [hq, hb] at h
    cases hf : firstByID (db.users.filter (satisfies conds)) with
    | none => simp [hf] at h
    | some v =>
      simp only [hf, Except.ok.injEq] at h
      subst h
      have := firstByID_mem _ _ hf
      simpa [List.mem_filter] using this

theorem First_notFound (env : Env) (db : DB) (conds : List (Column × Value))
    (q : List Column) (args : List Value) (hb : bindArgs q args = some conds)
    (hq : env.queryErr = none) :
    First env db q args = .error .ErrRecordNotFound ↔
      ∀ u ∈ db.users, satisfies conds u = false := by
  unfold First
  simp only [hq, hb]
  cases hf : firstByID (db.users.filter (satisfies conds)) with
  | none =>
    simp only [true_iff]
    have := (firstByID_none _).mp hf
    intro u hu
    cases hs : satisfies conds u with
    | false => rfl
    | true =>
      have hm : u ∈ db.users.filter (satisfies conds) := List.mem_filter.mpr ⟨hu, hs⟩
      rw [this] at hm
      simp at hm
  | some v =>
    have := firstByID_mem _ _ hf
    rw [List.mem_filter] at this
    constructor
    · intro h
      cases h
    · intro hall
      rw [hall v this.1] at this
      simp at this

theorem FindByID_ok (env : Env) (db : DB) (id : Int) (u : User)
    (h : FindByID env db id = (u, none)) : u ∈ db.users ∧ u.ID = id ∧ u.Deleted = false := by
  unfold FindByID at h
  cases hf : First env db [.id, .deleted] [.int id, .bool false] with
  | error e =>
    rw [hf] at h
    simp only [] at h
    split at h <;> simp at h
  | ok v =>
    rw [hf] at h
    simp only [Prod.mk.injEq, and_true] at h
    subst h
    have := First_ok env db [(.id, .int id), (.deleted, .bool false)]
      [.id, .deleted] [.int id, .bool false] rfl v hf
    exact ⟨this.1, (satisfies_id id v).mp this.2⟩

theorem FindByEmail_ok (env : Env) (db : DB) (email : String) (u : User)
    (h : FindByEmail env db email = (u, none)) :
    u ∈ db.users ∧ u.Email = email ∧ u.Deleted = false := by
  unfold FindByEmail at h
  cases hf : First env db [.email, .deleted] [.str email, .bool false] with
  | error e =>
    rw [hf] at h
    simp only [] at h
    split at h <;> simp at h
  | ok v =>
    rw [hf] at h
    simp only [Prod.mk.injEq, and_true] at h
    subst h
    have := First_ok env db [(.email, .str email), (.deleted, .bool false)]
      [.email, .deleted] [.str email, .bool false] rfl v hf
    exact ⟨this.1, (satisfies_email email v).mp this.2⟩

theorem First_quiet (env : Env) (db : DB) (conds : List (Column × Value))
    (q : List Column) (args : List Value) (hb : bindArgs q args = some conds)
    (hq : env.queryErr = none) :
    (∃ u, First env db q args = .ok u) ∨ First env db q args = .error .ErrRecordNotFound := by
  unfold First
  simp only [hq, hb]
  cases firstByID (db.users.filter (satisfies conds)) with
  | none => exact Or.inr rfl
  | some v => exact Or.inl ⟨v, rfl⟩

theorem FindByID_notFound (env : Env) (db : DB) (id : Int) (hq : env.queryErr = none) :
    FindByID env db id = (User.zero, some .ErrUserNotFound) ↔
      ¬ ∃ u ∈ db.users, u.ID = id ∧ u.Deleted = false := by
  have hnf := First_notFound env db [(.id, .int id), (.deleted, .bool false)]
    [.id, .deleted] [.int id, .bool false] rfl hq
  have hcases := First_quiet env db [(.id, .int id), (.deleted, .bool false)]
    [.id, .deleted] [.int id, .bool false] rfl hq
  unfold FindByID
  rcases hcases with ⟨v, hv⟩ | he
  · have hok := First_ok env db [(.id, .int id), (.deleted, .bool false)]
      [.id, .deleted] [.int id, .bool false] rfl v hv
    rw [hv]
    simp only [Prod.mk.injEq, false_iff, not_not]
    constructor
    · intro h
      exact absurd h.2 (by simp)
    · intro h
      exact absurd ⟨v, hok.1, (satisfies_id id v).mp hok.2⟩ h
  · rw [he]
    simp only [if_true, true_iff]
    rintro ⟨u, hu, hs⟩
    have := hnf.mp he u hu
    rw [(satisfies_id id u).mpr hs] at this
    exact absurd this (by decide)

theorem FindByEmail_notFound (env : Env) (db : DB) (email : String)
    (hq : env.queryErr = none) :
    FindByEmail env db email = (User.zero, some .ErrUserNotFound) ↔
      ¬ ∃ u ∈ db.users, u.Email = email ∧ u.Deleted = false := by
  have hnf := First_notFound env db [(.email, .str email), (.deleted, .bool false)]
    [.email, .deleted] [.str email, .bool false] rfl hq
  have hcases := First_quiet env db [(.email, .str email), (.deleted, .bool false)]
    [.email, .deleted] [.str email, .bool false] rfl hq
  unfold FindByEmail
  rcases hcases with ⟨v, hv⟩ | he
  · have hok := First_ok env db [(.email, .str email), (.deleted, .bool false)]
      [.email, .deleted] [.str email, .bool false] rfl v hv
    rw [hv]
    simp only [Prod.mk.injEq, false_iff, not_not]
    constructor
    · intro h
      exact absurd h.2 (by simp)
    · intro h
      exact absurd ⟨v, hok.1, (satisfies_email email v).mp hok.2⟩ h
  · rw [he]
    simp only [if_true, true_iff]
    rintro ⟨u, hu, hs⟩
    have := hnf.mp he u hu
    rw [(satisfies_email email u).mpr hs] at this
    exact absurd this (by decide)

/-- C3. `FindByID` and `FindByEmail` never return a soft-deleted user: a user
returned with a nil error is a row of the store with the asked id (resp.
email) and `Deleted = false`; and when the query itself does not fail, the
zero `User` with `ErrUserNotFound` is returned exactly when the store holds no
such non-deleted row. -/
theorem Find_excludes_soft_deleted (env : Env) (db : DB) (id : Int) (email : String) :
    (∀ u, FindByID env db id = (u, none) → u ∈ db.users ∧ u.ID = id ∧ u.Deleted = false) ∧
    (∀ u, FindByEmail env db email = (u, none) →
      u ∈ db.users ∧ u.Email = email ∧ u.Deleted = false) ∧
    (env.queryErr = none →
      (FindByID env db id = (User.zero, some .ErrUserNotFound) ↔
        ¬ ∃ u ∈ db.users, u.ID = id ∧ u.Deleted = false)) ∧
    (env.queryErr = none →
      (FindByEmail env db email = (User.zero, some .ErrUserNotFound) ↔
        ¬ ∃ u ∈ db.users, u.Email = email ∧ u.Deleted = false)) :=
  ⟨FindByID_ok env db id, FindByEmail_ok env db email, FindByID_notFound env db id,
    FindByEmail_notFound env db email⟩

/-- Witness of C1 (amended) at `db0`: creating `carol`, whose `Profile` field
is zero, in a quiet world returns nil and
adds one user row and one profile row; a colliding user insert (`bob`), a
failing profile insert and a failing commit each return an error and leave
the store `db0`. -/
theorem CreateUser_atomic_witness :
    ((CreateUser (Env.quiet 10 2) db0 carol).2 = none ∧
      ∃ nu np, (CreateUser (Env.quiet 10 2) db0 carol).1 =
          { users := db0.users ++ [nu], profiles := db0.profiles ++ [np] } ∧
        nu = { carol with CreateTime := 10, UpdatedTime := 10, ID := 2 } ∧
        np.UserID = nu.ID ∧
        (∀ x ∈ db0.users, x.ID ≠ nu.ID) ∧ (∀ q ∈ db0.profiles, q.ID ≠ np.ID)) ∧
    ((CreateUser (Env.quiet 10 2) db0 bob).2 ≠ none ∧
      (CreateUser (Env.quiet 10 2) db0 bob).1 = db0) ∧
    ((CreateUser { Env.quiet 10 2 with createProfileErr := some (.other "bad connection") }
        db0 carol).2 ≠ none ∧
      (CreateUser { Env.quiet 10 2 with createProfileErr := some (.other "bad connection") }
        db0 carol).1 = db0) ∧
    ((CreateUser { Env.quiet 10 2 with commitErr := some (.other "bad connection") } db0 carol).2
        ≠ none ∧
      (CreateUser { Env.quiet 10 2 with commitErr := some (.other "bad connection") } db0 carol).1
        = db0) :=
  ⟨⟨by decide, (CreateUser_atomic (Env.quiet 10 2) db0 carol).2 rfl (by decide)⟩,
    ⟨by decide, (CreateUser_atomic (Env.quiet 10 2) db0 bob).1 (by decide)⟩,
    ⟨by decide, (CreateUser_atomic
      { Env.quiet 10 2 with createProfileErr := some (.other "bad connection") } db0 carol).1
      (by decide)⟩,
    ⟨by decide, (CreateUser_atomic
      { Env.quiet 10 2 with commitErr := some (.other "bad connection") } db0 carol).1
      (by decide)⟩⟩

/-- C1 as stated fails at `erin`, whose `Profile` field is filled in:
`CreateUser` returns nil and the committed store has two new profile rows
with the new user's ID, the auto-saved association and the row `CreateUser`
inserts itself; so it is not the old store plus exactly one profile row. -/
theorem CreateUser_atomic_counterexample :
    (CreateUser (Env.quiet 10 2) db0 erin).2 = none ∧
    (CreateUser (Env.quiet 10 2) db0 erin).1.profiles =
      db0.profiles ++
        [{ ID := 3, UserID := 2, NickName := "erin", Avatar := "", About := "", Birthday := "" },
         { ID := 4, UserID := 2, NickName := "", Avatar := "", About := "", Birthday := "" }] ∧
    ¬ ∃ np, (CreateUser (Env.quiet 10 2) db0 erin).1.profiles = db0.profiles ++ [np] := by
  refine ⟨by decide, by decide, ?_⟩
  rintro ⟨np, h⟩
  have hlen := congrArg List.length h
  have h4 : (CreateUser (Env.quiet 10 2) db0 erin).1.profiles.length = 4 := by decide
  rw [h4] at hlen
  simp [db0] at hlen

/-- Witness of C3 at `db0`: `alice` is found by id, the soft-deleted `dave` is
not found by id or by email. -/
theorem Find_excludes_soft_deleted_witness :
    (FindByID (Env.quiet 10 2) db0 1 = (alice, none) ∧
      alice ∈ db0.users ∧ alice.ID = 1 ∧ alice.Deleted = false) ∧
    FindByID (Env.quiet 10 2) db0 4 = (User.zero, some .ErrUserNotFound) ∧
    FindByEmail (Env.quiet 10 2) db0 "d@x.io" = (User.zero, some .ErrUserNotFound) :=
  ⟨⟨by decide, (Find_excludes_soft_deleted (Env.quiet 10 2) db0 1 "d@x.io").1 alice (by decide)⟩,
    ((Find_excludes_soft_deleted (Env.quiet 10 2) db0 4 "d@x.io").2.2.1 rfl).mpr (by decide),
    ((Find_excludes_soft_deleted (Env.quiet 10 2) db0 4 "d@x.io").2.2.2 rfl).mpr (by decide)⟩

/-- C2 (amended). If a user row with the same email as the input already
exists and neither `Begin` nor the user insert fails for a reason of its own,
`CreateUser` returns `ErrDuplicateEmail`; a user-insert failure whose error is
not MySQL error 1062, and every profile-insert failure, is returned to the
caller as the underlying error.  In each case the store is left as it was. -/
theorem CreateUser_duplicate_email (env : Env) (db : DB) (u : User) :
    (env.beginErr = none → env.createUserErr = none → (∃ r ∈ db.users, r.Email = u.Email) →
      CreateUser env db u = (db, some .ErrDuplicateEmail)) ∧
    (∀ tx e,
      (Begin env db).CreateUserRow env
          { u with CreateTime := env.now, UpdatedTime := env.now, ID := env.nextID }
        = (tx, some e) →
      asMySQLError e ≠ some ErrCodeDuplicateEmailNumber →
      CreateUser env db u = (db, some e)) ∧
    (∀ tx1 tx2 e,
      (Begin env db).CreateUserRow env
          { u with CreateTime := env.now, UpdatedTime := env.now, ID := env.nextID }
        = (tx1, none) →
      tx1.CreateProfileRow env
          { ID := 0, UserID := env.nextID, NickName := "", Avatar := "", About := "",
            Birthday := "" }
        = (tx2, some e) →
      CreateUser env db u = (db, some e)) := by
  refine ⟨?_, ?_, ?_⟩
  · rintro hb hu ⟨r, hr, hre⟩
    have hany : db.users.any (collides
        { u with CreateTime := env.now, UpdatedTime := env.now, ID := env.nextID }) = true := by
      apply List.any_eq_true.mpr
      exact ⟨r, hr, by simp [collides, hre]⟩
    simp only [] at hany
    simp [CreateUser, Begin, Tx.CreateUserRow, hb, hu, hany, asMySQLError,
      ErrCodeDuplicateEmailNumber, Tx.Rollback]
  · intro tx e h hne
    have hc := Tx.CreateUserRow_committed env (Begin env db)
      { u with CreateTime := env.now, UpdatedTime := env.now, ID := env.nextID }
    rw [h] at hc
    simp only [] at h hc
    unfold CreateUser
    simp only [h, hne, if_false, Tx.Rollback]
    rw [hc]; rfl
  · intro tx1 tx2 e h1 h2
    have hc1 := Tx.CreateUserRow_committed env (Begin env db)
      { u with CreateTime := env.now, UpdatedTime := env.now, ID := env.nextID }
    rw [h1] at hc1
    have hc2 := Tx.CreateProfileRow_committed env tx1
      { ID := 0, UserID := env.nextID, NickName := "", Avatar := "", About := "",
        Birthday := "" }
    rw [h2] at hc2
    simp only [] at h1 hc1 hc2
    unfold CreateUser
    simp only [h1, h2, Tx.Rollback]
    rw [hc2, hc1]; rfl

/-- Witness of C2 (amended) at `db0`: a new user with the email of `alice`
gets `ErrDuplicateEmail`. -/
theorem CreateUser_duplicate_email_witness :
    (∃ r ∈ db0.users, r.Email = "a@x.io") ∧
    CreateUser (Env.quiet 10 2) db0 { carol with Email := "a@x.io" }
      = (db0, some .ErrDuplicateEmail) :=
  ⟨by decide,
    (CreateUser_duplicate_email (Env.quiet 10 2) db0 { carol with Email := "a@x.io" }).1
      rfl rfl (by decide)⟩

/-- C2 as stated fails in both directions.  `bob` has a fresh email and the
phone number of `alice`: `CreateUser` returns `ErrDuplicateEmail` although no
row has his email.  And a user with the email of `alice` whose insert fails
for a reason of its own gets that error, not `ErrDuplicateEmail`. -/
theorem CreateUser_duplicate_email_counterexample :
    ¬ ((CreateUser (Env.quiet 10 2) db0 bob).2 = some .ErrDuplicateEmail ↔
        ∃ r ∈ db0.users, r.Email = bob.Email) ∧
    ¬ ((CreateUser { Env.quiet 10 2 with createUserErr := some (.other "bad connection") } db0
          { carol with Email := "a@x.io" }).2 = some .ErrDuplicateEmail ↔
        ∃ r ∈ db0.users, r.Email = "a@x.io") := by
  decide

/-- C4 at a failing input: `db0` holds the non-deleted `alice` with phone
"123", and `FindByPhone` returns the zero `User` with the argument-count
error; with no such row it returns the same error, not `ErrUserNotFound`. -/
theorem FindByPhone_fails :
    (∃ u ∈ db0.users, u.Phone = some "123" ∧ u.Deleted = false) ∧
    FindByPhone (Env.quiet 10 2) db0 "123" = (User.zero, some (.badArgs 2 1)) ∧
    (¬ ∃ u ∈ db0.users, u.Phone = some "999" ∧ u.Deleted = false) ∧
    FindByPhone (Env.quiet 10 2) db0 "999" = (User.zero, some (.badArgs 2 1)) := by
  decide

end LinkMe.dao

namespace LinkMe.events

theorem deliver_total (p : RetryPolicy) (h : Handler) (offset : Nat) (fuel : Nat) :
    ∀ (ff : Option Nat) (e : Envelope) (rt : Runtime), p.maxAttempts - e.attempt < fuel →
      ∃ rt1, deliver p h offset fuel ff e rt = some rt1 := by
  induction fuel with
  | zero => intro ff e rt hlt; omega
  | succ n ih =>
    intro ff e rt hlt
    unfold deliver
    by_cases hh : rt.ledgerHas h.name e.key e.type = true
    · simp only [hh, if_true]
      exact ⟨_, rfl⟩
    · simp only [hh, if_false]
      cases hc : h.consume e with
      | Success => exact ⟨_, rfl⟩
      | Permanent => exact ⟨_, rfl⟩
      | Transient =>
        simp only []
        by_cases hlt2 : e.attempt + 1 < p.maxAttempts
        · simp only [hlt2, if_true]
          apply ih
          simp only []
          omega
        · simp only [hlt2, if_false]
          exact ⟨_, rfl⟩

theorem invocations_append (l1 l2 : List Event) :
    invocations (l1 ++ l2) = invocations l1 + invocations l2 := by
  simp [invocations, List.countP_append]

theorem deliver_exhaust (p : RetryPolicy) (h : Handler) (offset : Nat)
    (htr : ∀ x, h.consume x = .Transient) (fuel : Nat) :
    ∀ (ff : Option Nat) (e : Envelope) (rt : Runtime),
      rt.ledgerHas h.name e.key e.type = false →
      e.attempt < p.maxAttempts → p.maxAttempts - e.attempt ≤ fuel →
      ∃ rt1 mid r,
        deliver p h offset fuel ff e rt = some rt1 ∧
        rt1.log = rt.log ++ mid ++ [.deadLettered r, .committed offset, .alerted e.key] ∧
        invocations mid = p.maxAttempts - e.attempt ∧
        rt1.deadLetters = rt.deadLetters ++ [r] ∧
        r.envelope = { e with attempt := p.maxAttempts } ∧
        r.attemptCount = p.maxAttempts ∧ r.lastError = .Transient ∧
        rt1.committed = rt.committed ++ [offset] ∧
        rt1.ledger = rt.ledger := by
  induction fuel with
  | zero => intro ff e rt _ hlt hf; omega
  | succ n ih =>
    intro ff e rt hmiss hlt hf
    unfold deliver
    simp only [hmiss, Bool.false_eq_true, if_false, htr e]
    by_cases hlt2 : e.attempt + 1 < p.maxAttempts
    · simp only [hlt2, if_true]
      obtain ⟨rt1, mid, r, hd, hlog, hinv, hdl, henv, hcnt, hcls, hcom, hled⟩ :=
        ih (some (ff.getD (rt.invoke h e).clock)) { e with attempt := e.attempt + 1 }
          ((rt.invoke h e).sleep (backoff p (e.attempt + 1))) hmiss hlt2
          (by simp only []; omega)
      refine ⟨rt1, [.invoked h.name e, .slept (backoff p (e.attempt + 1))] ++ mid, r,
        hd, ?_, ?_, hdl, henv, hcnt, hcls, hcom, hled⟩
      · rw [hlog]
        simp [Runtime.invoke, Runtime.sleep]
      · have hinv2 : invocations mid = p.maxAttempts - (e.attempt + 1) := hinv
        have hone : invocations
            [Event.invoked h.name e, Event.slept (backoff p (e.attempt + 1))] = 1 := by
          simp [invocations]
        rw [invocations_append, hinv2, hone]
        omega
    · simp only [hlt2, if_false]
      have hmax : p.maxAttempts = e.attempt + 1 := by omega
      refine ⟨_, [.invoked h.name e], _, rfl, ?_, ?_, rfl, ?_, ?_, rfl, rfl, rfl⟩
      · simp [Runtime.invoke, Runtime.deadLetter, Runtime.commit, Runtime.alert]
      · simp [invocations, hmax]
      · simp [hmax]
      · simp [hmax]

/-- C5. Retry exhaustion: for a fresh envelope (`attempt = 0`) with no ledger
entry and `maxAttempts ≥ 1`, a Handler that always returns `Transient` is
invoked exactly `maxAttempts` times; after these invocations exactly one
Dead-Letter Record is written for the envelope and then its offset is
committed; the ledger is not written. -/
theorem retry_exhaustion (p : RetryPolicy) (h : Handler) (offset : Nat) (e : Envelope)
    (rt : Runtime) (hmax : 1 ≤ p.maxAttempts) (htr : ∀ x, h.consume x = .Transient)
    (hfresh : e.attempt = 0) (hmiss : rt.ledgerHas h.name e.key e.type = false) :
    ∃ rt1 mid r,
      handle p h offset e rt = some rt1 ∧
      rt1.log = rt.log ++ mid ++ [.deadLettered r, .committed offset, .alerted e.key] ∧
      invocations mid = p.maxAttempts ∧
      invocations rt1.log = invocations rt.log + p.maxAttempts ∧
      rt1.deadLetters = rt.deadLetters ++ [r] ∧
      r.envelope = { e with attempt := p.maxAttempts } ∧
      r.lastError = .Transient ∧
      rt1.committed = rt.committed ++ [offset] ∧
      rt1.ledger = rt.ledger := by
  obtain ⟨rt1, mid, r, hd, hlog, hinv, hdl, henv, -, hcls, hcom, hled⟩ :=
    deliver_exhaust p h offset htr (p.maxAttempts + 1) none e rt hmiss (by omega) (by omega)
  have hinv2 : invocations mid = p.maxAttempts := by rw [hinv, hfresh]; rfl
  refine ⟨rt1, mid, r, hd, hlog, hinv2, ?_, hdl, henv, hcls, hcom, hled⟩
  rw [hlog, invocations_append, invocations_append, hinv2]
  simp [invocations]

theorem writeLedger_has (rt : Runtime) (h : Handler) (e : Envelope) :
    (rt.writeLedger h e).ledgerHas h.name e.key e.type = true := by
  unfold Runtime.writeLedger
  by_cases hh : rt.ledgerHas h.name e.key e.type = true
  · simp only [hh, if_true]
  · simp only [hh, if_false]
    simp [Runtime.ledgerHas]

theorem writeLedger_miss (rt : Runtime) (h : Handler) (e : Envelope)
    (hm : rt.ledgerHas h.name e.key e.type = false) :
    rt.writeLedger h e =
      { rt with
        ledger := rt.ledger ++ [⟨h.name, e.key, e.type, rt.clock⟩],
        log := rt.log ++ [.ledgerWritten ⟨h.name, e.key, e.type, rt.clock⟩] } := by
  unfold Runtime.writeLedger
  simp only [hm, Bool.false_eq_true, if_false]

theorem deliver_hit (p : RetryPolicy) (h : Handler) (offset fuel : Nat) (ff : Option Nat)
    (e : Envelope) (rt : Runtime) (hh : rt.ledgerHas h.name e.key e.type = true) :
    deliver p h offset (fuel + 1) ff e rt = some (rt.commit offset) := by
  unfold deliver
  simp only [hh, if_true]

theorem deliver_ledger (p : RetryPolicy) (h : Handler) (offset : Nat) (fuel : Nat) :
    ∀ (ff : Option Nat) (e : Envelope) (rt rt1 : Runtime),
      deliver p h offset fuel ff e rt = some rt1 →
      rt1.ledger = rt.ledger ∨
      ∃ a entry pre,
        h.consume { e with attempt := a } = .Success ∧
        rt1.ledger = rt.ledger ++ [entry] ∧
        entry.handlerName = h.name ∧ entry.eventKey = e.key ∧ entry.eventType = e.type ∧
        rt1.log = pre ++ [.invoked h.name { e with attempt := a }, .ledgerWritten entry,
          .committed offset] := by
  induction fuel with
  | zero => intro ff e rt rt1 hd; simp [deliver] at hd
  | succ n ih =>
    intro ff e rt rt1 hd
    unfold deliver at hd
    by_cases hh : rt.ledgerHas h.name e.key e.type = true
    · simp only [hh, if_true, Option.some.injEq] at hd
      subst hd
      exact Or.inl rfl
    · have hh0 : rt.ledgerHas h.name e.key e.type = false := Bool.eq_false_iff.mpr hh
      simp only [hh0, Bool.false_eq_true, if_false] at hd
      cases hc : h.consume e with
      | Success =>
        simp only [hc, Option.some.injEq] at hd
        subst hd
        right
        have hh1 : (rt.invoke h e).ledgerHas h.name e.key e.type = false := hh0
        rw [writeLedger_miss _ _ _ hh1]
        refine ⟨e.attempt, ⟨h.name, e.key, e.type, rt.clock⟩, rt.log, hc, ?_, rfl, rfl, rfl, ?_⟩
        · simp [Runtime.commit, Runtime.invoke]
        · simp [Runtime.commit, Runtime.invoke]
      | Permanent =>
        simp only [hc, Option.some.injEq] at hd
        subst hd
        exact Or.inl rfl
      | Transient =>
        simp only [hc] at hd
        by_cases hlt : e.attempt + 1 < p.maxAttempts
        · simp only [hlt, if_true] at hd
          rcases ih _ _ _ _ hd with hl | ⟨a, entry, pre, hs, hl, h1, h2, h3, hlog⟩
          · exact Or.inl hl
          · exact Or.inr ⟨a, entry, pre, hs, hl, h1, h2, h3, hlog⟩
        · simp only [hlt, if_false, Option.some.injEq] at hd
          subst hd
          exact Or.inl rfl

theorem deliver_success_has (p : RetryPolicy) (h : Handler) (offset : Nat) (fuel : Nat) :
    ∀ (ff : Option Nat) (e : Envelope) (rt rt1 : Runtime),
      deliver p h offset fuel ff e rt = some rt1 →
      ∃ new, rt1.log = rt.log ++ new ∧
        ∀ a, Event.invoked h.name { e with attempt := a } ∈ new →
          h.consume { e with attempt := a } = .Success →
          rt1.ledgerHas h.name e.key e.type = true := by
  induction fuel with
  | zero => intro ff e rt rt1 hd; simp [deliver] at hd
  | succ n ih =>
    intro ff e rt rt1 hd
    unfold deliver at hd
    by_cases hh : rt.ledgerHas h.name e.key e.type = true
    · simp only [hh, if_true, Option.some.injEq] at hd
      subst hd
      exact ⟨[.committed offset], rfl, fun a _ _ => hh⟩
    · have hh0 : rt.ledgerHas h.name e.key e.type = false := Bool.eq_false_iff.mpr hh
      simp only [hh0, Bool.false_eq_true, if_false] at hd
      cases hc : h.consume e with
      | Success =>
        simp only [hc, Option.some.injEq] at hd
        subst hd
        have hh1 : (rt.invoke h e).ledgerHas h.name e.key e.type = false := hh0
        refine ⟨[.invoked h.name e, .ledgerWritten ⟨h.name, e.key, e.type, rt.clock⟩,
          .committed offset], ?_, ?_⟩
        · rw [writeLedger_miss _ _ _ hh1]
          simp [Runtime.commit, Runtime.invoke]
        · intro a _ _
          have := writeLedger_has (rt.invoke h e) h e
          simpa [Runtime.commit, Runtime.ledgerHas] using this
      | Permanent =>
        simp only [hc, Option.some.injEq] at hd
        subst hd
        refine ⟨[.invoked h.name e, .deadLettered ⟨e, e.attempt, .Permanent,
          ff.getD rt.clock, rt.clock⟩, .committed offset, .alerted e.key], ?_, ?_⟩
        · simp [Runtime.deadLetter, Runtime.commit, Runtime.invoke, Runtime.alert]
        · intro a hmem hs
          simp only [List.mem_cons, Event.invoked.injEq, true_and, List.mem_singleton,
            reduceCtorEq, or_false, List.not_mem_nil] at hmem
          rw [hmem, hc] at hs
          cases hs
      | Transient =>
        simp only [hc] at hd
        by_cases hlt : e.attempt + 1 < p.maxAttempts
        · simp only [hlt, if_true] at hd
          obtain ⟨new, hlog, hall⟩ := ih _ _ _ _ hd
          refine ⟨[.invoked h.name e, .slept (backoff p (e.attempt + 1))] ++ new, ?_, ?_⟩
          · rw [hlog]
            simp [Runtime.invoke, Runtime.sleep]
          · intro a hmem hs
            simp only [List.cons_append, List.nil_append, List.mem_cons, Event.invoked.injEq,
              true_and, reduceCtorEq, false_or] at hmem
            rcases hmem with heq | hmem
            · rw [heq, hc] at hs
              cases hs
            · exact hall a hmem hs
        · simp only [hlt, if_false, Option.some.injEq] at hd
          subst hd
          refine ⟨[.invoked h.name e, .deadLettered ⟨{ e with attempt := e.attempt + 1 },
            e.attempt + 1, .Transient, ff.getD rt.clock, rt.clock⟩, .committed offset,
            .alerted e.key], ?_, ?_⟩
          · simp [Runtime.deadLetter, Runtime.commit, Runtime.invoke, Runtime.alert]
          · intro a hmem hs
            simp only [List.mem_cons, Event.invoked.injEq, true_and, List.mem_singleton,
              reduceCtorEq, or_false, List.not_mem_nil] at hmem
            rw [hmem, hc] at hs
            cases hs

/-- C6. Duplicate suppression through the Idempotency Ledger.  Handling an
envelope always ends.  If the ledger already holds an entry for
`(handler.name, envelope.key, envelope.type)`, the runtime only commits the
offset: the Handler is not invoked and nothing else changes.  The ledger only
changes by one entry for that triple, written right after an invocation of the
Handler that returned `Success` and right before the offset commit.  And once
an invocation for the envelope has succeeded, delivering the same envelope
again only commits its offset, without another invocation. -/
theorem duplicate_suppression (p : RetryPolicy) (h : Handler) (offset : Nat) (e : Envelope)
    (rt : Runtime) :
    (∃ rt1, handle p h offset e rt = some rt1) ∧
    (rt.ledgerHas h.name e.key e.type = true →
      handle p h offset e rt =
        some { rt with committed := rt.committed ++ [offset],
                       log := rt.log ++ [.committed offset] }) ∧
    (∀ rt1, handle p h offset e rt = some rt1 → rt1.ledger ≠ rt.ledger →
      ∃ a entry pre,
        h.consume { e with attempt := a } = .Success ∧
        rt1.ledger = rt.ledger ++ [entry] ∧
        entry.handlerName = h.name ∧ entry.eventKey = e.key ∧ entry.eventType = e.type ∧
        rt1.log = pre ++ [.invoked h.name { e with attempt := a }, .ledgerWritten entry,
          .committed offset]) ∧
    (∀ rt1 a offset2, handle p h offset e rt = some rt1 →
      Event.invoked h.name { e with attempt := a } ∈ rt1.log.drop rt.log.length →
      h.consume { e with attempt := a } = .Success →
      handle p h offset2 e rt1 =
        some { rt1 with committed := rt1.committed ++ [offset2],
                        log := rt1.log ++ [.committed offset2] }) := by
  refine ⟨?_, ?_, ?_, ?_⟩
  · exact deliver_total p h offset (p.maxAttempts + 1) none e rt (by omega)
  · intro hh
    exact deliver_hit p h offset p.maxAttempts none e rt hh
  · intro rt1 hd hne
    rcases deliver_ledger p h offset (p.maxAttempts + 1) none e rt rt1 hd with hl | hw
    · exact absurd hl hne
    · exact hw
  · intro rt1 a offset2 hd hmem hs
    obtain ⟨new, hlog, hall⟩ := deliver_success_has p h offset (p.maxAttempts + 1) none e rt rt1 hd
    rw [hlog, List.drop_left] at hmem
    exact deliver_hit p h offset2 p.maxAttempts none e rt1 (hall a hmem hs)

/-- Witness of C5: `flaky` on the fresh `env7` with three attempts is invoked
three times, then dead-lettered once, then committed at offset 5. -/
theorem retry_exhaustion_witness :
    (handle policy3 flaky 5 env7 Runtime.init).map (fun rt => invocations rt.log) = some 3 ∧
    (handle policy3 flaky 5 env7 Runtime.init).map (fun rt => rt.deadLetters.length) = some 1 ∧
    (handle policy3 flaky 5 env7 Runtime.init).map (fun rt => rt.committed) = some [5] ∧
    ∃ rt1 mid r,
      handle policy3 flaky 5 env7 Runtime.init = some rt1 ∧
      rt1.log = Runtime.init.log ++ mid ++
        [.deadLettered r, .committed 5, .alerted env7.key] ∧
      invocations mid = policy3.maxAttempts ∧
      invocations rt1.log = invocations Runtime.init.log + policy3.maxAttempts ∧
      rt1.deadLetters = Runtime.init.deadLetters ++ [r] ∧
      r.envelope = { env7 with attempt := policy3.maxAttempts } ∧
      r.lastError = .Transient ∧
      rt1.committed = Runtime.init.committed ++ [5] ∧
      rt1.ledger = Runtime.init.ledger :=
  ⟨by decide, by decide, by decide,
    retry_exhaustion policy3 flaky 5 env7 Runtime.init (by decide) (fun _ => rfl) rfl rfl⟩

/-- Witness of C6: `thirdTime` succeeds on its third attempt for `env7`, which
leaves `afterFirst`; the second delivery of `env7`, at offset 6, only commits
that offset. -/
theorem duplicate_suppression_witness :
    handle policy3 thirdTime 5 env7 Runtime.init = some afterFirst ∧
    handle policy3 thirdTime 6 env7 afterFirst =
      some { afterFirst with committed := afterFirst.committed ++ [6],
                             log := afterFirst.log ++ [.committed 6] } :=
  ⟨by decide,
    (duplicate_suppression policy3 thirdTime 5 env7 Runtime.init).2.2.2 afterFirst 2 6
      (by decide) (by decide) (by decide)⟩

end LinkMe.events
